import Mathlib

/-
Shallow embedding of `devops_tools.py` (repository auto-cloud).

The program's interactions with the outside world (environment variables,
the `terraform output -json` subprocess, SSH sessions, remote command
execution, SFTP mkdir/put/write) are modelled by an oracle structure
`World`; every embedded operation returns its result together with the
list of externally visible events it issued, in order.  Machine-level
details that the claims do not touch (byte decoding, timeouts) are
represented by the decoded strings the Python code works with.
-/

deriving instance DecidableEq for Except

namespace AutoCloud

/-- The three named Terraform outputs `deploy` reads:
`outs.get(k, {}).get("value")` yields `none` when the key or its
`"value"` field is absent. -/
structure TfOuts where
  app_public_ip : Option String
  web_public_ip : Option String
  app_private_ip : Option String
deriving DecidableEq

/-- The three private-key formats tried by `load_private_key`, in order:
`Ed25519Key`, `RSAKey`, `ECDSAKey`. -/
inductive KeyFmt where
  | ed25519
  | rsa
  | ecdsa
deriving DecidableEq

mutual
/-- A local filesystem entry, as traversed by `sftp_put_dir` via
`Path.iterdir`: a file with contents, or a directory with children. -/
inductive FsTree where
  | file (name content : String)
  | dir (name : String) (children : FsList)
/-- A list of local filesystem entries (the result of `iterdir`,
in iteration order). -/
inductive FsList where
  | nil
  | cons (head : FsTree) (tail : FsList)
end

/-- Externally visible events issued by the tool, in program order. -/
inductive Ev where
  | tfQuery
  | sessionOpen (host : String)
  | sessionClose (host : String)
  | execCmd (host cmd : String)
  | mkdir (host path : String)
  | putFile (host path content : String)
  | sftpWrite (host path content : String)
deriving DecidableEq

/-- Oracle for everything outside the program: environment variables,
the provisioner, key parsing, SSH reachability, remote command results
(exit code, decoded stdout, decoded stderr), and SFTP failures.
`mkdirFails` models `sftp.mkdir` raising `IOError` (the exception class
every paramiko SFTP failure is an instance of). -/
structure World where
  envAppVmIp : Option String
  envWebVmIp : Option String
  envAppPrivateIp : Option String
  tfQueryOk : Bool
  tfOuts : TfOuts
  tfErrMsg : String
  keyTry : KeyFmt → String → Except String String
  sshOk : String → Bool
  cmdRes : String → String → Nat × String × String
  putFails : String → String → Bool
  mkdirFails : String → String → Bool
  sftpWriteFails : String → String → Bool
  appTree : FsList
  renderUnit : String → String → String → Nat → Nat → String
  renderNginx : String → Nat → String

/-- Python truthiness of an optional string: `None` and `""` are falsy. -/
def truthy : Option String → Bool
  | none => false
  | some s => !(s == "")

/-- The dict built by `tf_output` on the environment-variable path:
`{"app_public_ip": {"value": app_ip}, "web_public_ip": {"value": web_ip},
"app_private_ip": {"value": app_priv_ip}}`. -/
def envTfOuts (w : World) : TfOuts :=
  { app_public_ip := w.envAppVmIp
    web_public_ip := w.envWebVmIp
    app_private_ip := w.envAppPrivateIp }

/-- `tf_output`: if all of `APP_VM_IP`, `WEB_VM_IP`, `APP_PRIVATE_IP` are
truthy, return the dict built from them; otherwise run
`terraform output -json`, raising `ClickException` on non-zero exit. -/
def tf_output (w : World) : Except String TfOuts × List Ev :=
  if truthy w.envAppVmIp && truthy w.envWebVmIp && truthy w.envAppPrivateIp then
    (.ok (envTfOuts w), [])
  else if w.tfQueryOk then
    (.ok w.tfOuts, [Ev.tfQuery])
  else
    (.error ("Terraform output failed: " ++ w.tfErrMsg), [Ev.tfQuery])

/-- `load_private_key`: try `Ed25519Key`, `RSAKey`, `ECDSAKey` in order,
returning the first key that parses; if all fail, raise one
`ClickException` whose message lists every per-format error (the Python
code interpolates the `errors` list into the message). -/
def load_private_key (w : World) (path : String) : Except String String :=
  match w.keyTry KeyFmt.ed25519 path with
  | .ok k => .ok k
  | .error e1 =>
    match w.keyTry KeyFmt.rsa path with
    | .ok k => .ok k
    | .error e2 =>
      match w.keyTry KeyFmt.ecdsa path with
      | .ok k => .ok k
      | .error e3 =>
        .error ("Could not load private key " ++ path ++ ". Errors: ["
          ++ e1 ++ ", " ++ e2 ++ ", " ++ e3 ++ "]")

/-- `ssh_client`: load the key, then connect; either failure propagates
and in that case no authenticated remote session exists. -/
def ssh_client (w : World) (host _user key_path : String) : Except String Unit :=
  match load_private_key w key_path with
  | .error e => .error e
  | .ok _ =>
    if w.sshOk host then .ok () else .error ("SSH connect failed: " ++ host)

/-- `run`: execute one remote command; on exit status 0 return the
decoded captured stdout, otherwise raise `ClickException` with the exit
code, the command and both captured streams. -/
def run (w : World) (host cmd : String) : Except String String × List Ev :=
  let rc := (w.cmdRes host cmd).1
  let out := (w.cmdRes host cmd).2.1
  let err := (w.cmdRes host cmd).2.2
  if rc = 0 then
    (.ok out, [Ev.execCmd host cmd])
  else
    (.error ("Command failed (" ++ toString rc ++ "): " ++ cmd
      ++ "\nSTDOUT: " ++ out ++ "\nSTDERR: " ++ err), [Ev.execCmd host cmd])

/-- Python `remote_dir.rstrip('/')`. -/
def rstripSlash (s : String) : String :=
  String.mk ((s.data.reverse.dropWhile (fun c => c == '/')).reverse)

/-- The f-string `f"{remote_dir.rstrip('/')}/{item.name}"`. -/
def joinPath (rdir name : String) : String :=
  rstripSlash rdir ++ "/" ++ name

/-- `sftp.mkdir`: fails (with `IOError`, e.g. directory already exists)
exactly when the oracle says so. -/
def sftp_mkdir (w : World) (host path : String) : Except String Unit :=
  if w.mkdirFails host path then .error ("mkdir failed: " ++ path) else .ok ()

/-- Writing a rendered artifact through `sftp.open(path, "w")`. -/
def sftp_write (w : World) (host path content : String) :
    Except String Unit × List Ev :=
  if w.sftpWriteFails host path then
    (.error ("SFTP write failed: " ++ path), [Ev.sftpWrite host path content])
  else
    (.ok (), [Ev.sftpWrite host path content])

mutual
/-- One iteration of the `for item in local_dir.iterdir()` loop of
`sftp_put_dir`.  For a directory the loop does `sftp.mkdir(remote_path)`
inside `try/except IOError: pass` and then calls `sftp_put_dir`
recursively; the recursive call's own entry `sftp.mkdir(remote_dir)`
(also swallowed) is inlined here, hence the two discarded `sftp_mkdir`
results and the two `mkdir` events for the same path.  For a file,
`sftp.put` failures propagate. -/
def putOne (w : World) (host : String) : FsTree → String → Except String Unit × List Ev
  | FsTree.file n c, rdir =>
    let rp := joinPath rdir n
    if w.putFails host rp then
      (.error ("Upload failed: " ++ rp), [Ev.putFile host rp c])
    else
      (.ok (), [Ev.putFile host rp c])
  | FsTree.dir n cs, rdir =>
    let rp := joinPath rdir n
    let _loopMk := sftp_mkdir w host rp
    let _entryMk := sftp_mkdir w host rp
    let sub := putItems w host cs rp
    (sub.1, Ev.mkdir host rp :: Ev.mkdir host rp :: sub.2)

/-- The `for` loop of `sftp_put_dir` over the remaining items; any
uncaught exception from an item aborts the remaining iterations. -/
def putItems (w : World) (host : String) : FsList → String → Except String Unit × List Ev
  | FsList.nil, _ => (.ok (), [])
  | FsList.cons item rest, rdir =>
    let r := putOne w host item rdir
    match r.1 with
    | .error e => (.error e, r.2)
    | .ok _ =>
      let restR := putItems w host rest rdir
      (restR.1, r.2 ++ restR.2)
end

/-- `sftp_put_dir(sftp, local_dir, remote_dir)`: swallowed
`sftp.mkdir(remote_dir)` at entry, then the loop over `iterdir`. -/
def sftp_put_dir (w : World) (host : String) (items : FsList) (rdir : String) :
    Except String Unit × List Ev :=
  let _entryMk := sftp_mkdir w host rdir
  let r := putItems w host items rdir
  (r.1, Ev.mkdir host rdir :: r.2)

/-- Sequencing of two effectful steps: if the first raised, the second
is never issued (its events do not appear). -/
def seqStep {α β : Type} (a : Except String α × List Ev)
    (b : Except String β × List Ev) : Except String β × List Ev :=
  match a.1 with
  | .error e => (.error e, a.2)
  | .ok _ => (b.1, a.2 ++ b.2)

/-- Discard a step's value (Python functions returning `None`). -/
def toUnit {α : Type} (a : Except String α × List Ev) :
    Except String Unit × List Ev :=
  (a.1.map (fun _ => ()), a.2)

/-- The body of `deploy_app_vm` between `ssh_client` and the `finally`
that closes the session: the strict linear sequence of remote steps of
the application-host routine. -/
def appBody (w : World) (host admin_user : String) (port workers : Nat)
    (app_dir_name : String) : Except String Unit × List Ev :=
  let remote_app_dir := "/home/" ++ admin_user ++ "/" ++ app_dir_name
  toUnit (seqStep (run w host "sudo apt-get update -y && sudo apt-get install -y python3-venv python3-pip")
  (seqStep (run w host ("mkdir -p " ++ remote_app_dir))
  (seqStep (sftp_put_dir w host w.appTree remote_app_dir)
  (seqStep (run w host ("python3 -m venv " ++ remote_app_dir ++ "/venv"))
  (seqStep (run w host (remote_app_dir ++ "/venv/bin/python -m pip install --upgrade pip setuptools wheel"))
  (seqStep (run w host (remote_app_dir ++ "/venv/bin/pip install -r " ++ remote_app_dir ++ "/requirements.txt"))
  (seqStep (sftp_write w host ("/home/" ++ admin_user ++ "/gunicorn.service")
      (w.renderUnit admin_user admin_user app_dir_name port workers))
  (seqStep (run w host ("sudo mv /home/" ++ admin_user ++ "/gunicorn.service /etc/systemd/system/gunicorn.service"))
  (seqStep (run w host "sudo systemctl daemon-reload")
  (run w host "sudo systemctl enable --now gunicorn.service"))))))))))

/-- `deploy_app_vm`: open the session, run the body, and close the
session in a `finally` on every exit path.  If `ssh_client` itself
raises, no session was opened. -/
def deploy_app_vm (w : World) (app_ip admin_user key_path : String)
    (port workers : Nat) (app_dir_name : String) : Except String Unit × List Ev :=
  match ssh_client w app_ip admin_user key_path with
  | .error e => (.error e, [])
  | .ok _ =>
    let body := appBody w app_ip admin_user port workers app_dir_name
    (body.1, Ev.sessionOpen app_ip :: body.2 ++ [Ev.sessionClose app_ip])

/-- The body of `deploy_web_vm` between `ssh_client` and its `finally`:
the strict linear sequence of remote steps of the proxy-host routine. -/
def webBody (w : World) (host app_private_ip admin_user : String) (port : Nat) :
    Except String Unit × List Ev :=
  toUnit (seqStep (run w host "sudo apt-get update -y && sudo apt-get install -y nginx")
  (seqStep (sftp_write w host ("/home/" ++ admin_user ++ "/flaskapp_nginx.conf")
      (w.renderNginx app_private_ip port))
  (seqStep (run w host ("sudo mv /home/" ++ admin_user ++ "/flaskapp_nginx.conf /etc/nginx/conf.d/flaskapp.conf"))
  (seqStep (run w host "sudo nginx -t")
  (run w host "sudo systemctl restart nginx && sudo systemctl enable nginx")))))

/-- `deploy_web_vm`: session scoped exactly like `deploy_app_vm`. -/
def deploy_web_vm (w : World) (web_ip app_private_ip admin_user key_path : String)
    (port : Nat) : Except String Unit × List Ev :=
  match ssh_client w web_ip admin_user key_path with
  | .error e => (.error e, [])
  | .ok _ =>
    let body := webBody w web_ip app_private_ip admin_user port
    (body.1, Ev.sessionOpen web_ip :: body.2 ++ [Ev.sessionClose web_ip])

/-- The `deploy` CLI action: fetch outputs, check the three endpoint
values (`if not all([...]): raise ClickException(...)`), then run the
application-host routine to completion followed by the proxy-host
routine. -/
def deploy (w : World) (ssh_key admin_user : String) (port workers : Nat)
    (app_dir : String) : Except String Unit × List Ev :=
  match tf_output w with
  | (.error e, tr) => (.error e, tr)
  | (.ok outs, tr) =>
    if truthy outs.web_public_ip && truthy outs.app_public_ip
        && truthy outs.app_private_ip then
      let appR := deploy_app_vm w (outs.app_public_ip.getD "") admin_user
        ssh_key port workers app_dir
      match appR.1 with
      | .error e => (.error e, tr ++ appR.2)
      | .ok _ =>
        let webR := deploy_web_vm w (outs.web_public_ip.getD "")
          (outs.app_private_ip.getD "") admin_user ssh_key port
        (webR.1, tr ++ appR.2 ++ webR.2)
    else
      (.error "Missing Terraform outputs (web/app public/private IPs).", tr)

/- ---------------------------------------------------------------
Specification-side observation functions over the local tree.
--------------------------------------------------------------- -/

mutual
/-- Remote paths and contents of the files contributed by one entry. -/
def filePathsOne : FsTree → String → List (String × String)
  | FsTree.file n c, rdir => [(joinPath rdir n, c)]
  | FsTree.dir n cs, rdir => filePathsList cs (joinPath rdir n)
/-- Remote paths and contents of all files of a tree list under a root. -/
def filePathsList : FsList → String → List (String × String)
  | FsList.nil, _ => []
  | FsList.cons t rest, rdir => filePathsOne t rdir ++ filePathsList rest rdir
end

mutual
/-- Remote paths of the directories contributed by one entry
(excluding the destination root itself). -/
def dirPathsOne : FsTree → String → List String
  | FsTree.file _ _, _ => []
  | FsTree.dir n cs, rdir => joinPath rdir n :: dirPathsList cs (joinPath rdir n)
/-- Remote paths of all directories of a tree list under a root. -/
def dirPathsList : FsList → String → List String
  | FsList.nil, _ => []
  | FsList.cons t rest, rdir => dirPathsOne t rdir ++ dirPathsList rest rdir
end

mutual
/-- For each file contributed by one entry: its remote path paired with
the remote paths of its ancestor directories strictly below the
destination root, outermost first. -/
def fileChainsOne : FsTree → String → List (String × List String)
  | FsTree.file n _, rdir => [(joinPath rdir n, [])]
  | FsTree.dir n cs, rdir =>
    (fileChainsList cs (joinPath rdir n)).map
      (fun pa => (pa.1, joinPath rdir n :: pa.2))
/-- The same over a list of entries. -/
def fileChainsList : FsList → String → List (String × List String)
  | FsList.nil, _ => []
  | FsList.cons t rest, rdir => fileChainsOne t rdir ++ fileChainsList rest rdir
end

/-- A well-formed entry name as produced by `Path.iterdir`: non-empty
and containing no path separator. -/
def goodNameB (n : String) : Bool :=
  decide (n ≠ "") && decide ('/' ∉ n.data)

mutual
/-- Every name in the tree is a well-formed filesystem entry name. -/
def wfTree : FsTree → Bool
  | FsTree.file n _ => goodNameB n
  | FsTree.dir n cs => goodNameB n && wfList cs
/-- Every name in the list of trees is well-formed. -/
def wfList : FsList → Bool
  | FsList.nil => true
  | FsList.cons t rest => wfTree t && wfList rest
end

/-- `ChainSpec rdir p anc` holds when `p` is the remote path of a file
reachable from root `rdir` through the directory paths `anc` (outermost
first), with every traversed name well-formed. -/
inductive ChainSpec : String → String → List String → Prop where
  | base (rdir n p : String) : goodNameB n = true → p = joinPath rdir n →
      ChainSpec rdir p []
  | step (rdir n p : String) (anc : List String) : goodNameB n = true →
      ChainSpec (joinPath rdir n) p anc →
      ChainSpec rdir p (joinPath rdir n :: anc)

/-- `part` occurs verbatim inside `msg`. -/
def strContains (msg part : String) : Prop :=
  ∃ pre post, msg = pre ++ part ++ post

/-- Events that open or close a remote session. -/
def isSessionEv : Ev → Bool
  | Ev.sessionOpen _ => true
  | Ev.sessionClose _ => true
  | _ => false

/-- A routine's trace either never opened a session (entry failed), or
is a single session on `host`, opened first, closed last, with no other
session event in between. -/
def sessionScoped (tr : List Ev) (host : String) : Prop :=
  tr = [] ∨ ∃ b, tr = Ev.sessionOpen host :: b ++ [Ev.sessionClose host]
    ∧ ∀ e ∈ b, isSessionEv e = false

/- ---------------------------------------------------------------
Concrete worlds used to evaluate the development on closed inputs.
--------------------------------------------------------------- -/

/-- A small well-formed application tree. -/
def demoTree : FsList :=
  FsList.cons (FsTree.file "requirements.txt" "flask")
    (FsList.cons (FsTree.dir "static" (FsList.cons (FsTree.file "style.css" "body") FsList.nil))
      FsList.nil)

/-- A base oracle: no environment variables, provisioner query succeeds,
every remote operation succeeds. -/
def w0 : World where
  envAppVmIp := none
  envWebVmIp := none
  envAppPrivateIp := none
  tfQueryOk := true
  tfOuts := ⟨some "203.0.113.10", some "203.0.113.20", some "10.0.0.5"⟩
  tfErrMsg := "exit status 1"
  keyTry := fun _ _ => .ok "PKEY"
  sshOk := fun _ => true
  cmdRes := fun _ _ => (0, "", "")
  putFails := fun _ _ => false
  mkdirFails := fun _ _ => false
  sftpWriteFails := fun _ _ => false
  appTree := demoTree
  renderUnit := fun _ _ _ _ _ => "UNIT"
  renderNginx := fun _ _ => "NGINX"

/-- All three environment variables set to non-empty addresses. -/
def wEnvSet : World :=
  { w0 with
    envAppVmIp := some "10.0.0.5"
    envWebVmIp := some "10.0.0.9"
    envAppPrivateIp := some "10.0.0.7" }

/-- Provisioner query succeeds but the proxy-host output is missing. -/
def wMissingOut : World :=
  { w0 with tfOuts := ⟨some "1.2.3.4", none, some "10.0.0.7"⟩ }

/-- One remote command exits non-zero with captured streams. -/
def wCmdFail : World :=
  { w0 with cmdRes := fun _ c =>
      if c = "sudo nginx -t" then (2, "checking", "syntax error") else (0, "", "") }

/-- Every key format fails to parse. -/
def wKeyFail : World :=
  { w0 with keyTry := fun f _ =>
      .error (match f with
        | KeyFmt.ed25519 => "not an OpenSSH key"
        | KeyFmt.rsa => "not a valid RSA key"
        | KeyFmt.ecdsa => "not a valid EC key") }

/-- One file upload fails while every mkdir also fails. -/
def wPutFail : World :=
  { w0 with
    putFails := fun _ p => p == "/srv/dst/static/style.css"
    mkdirFails := fun _ _ => true }

/- ---------------------------------------------------------------
General helper lemmas.
--------------------------------------------------------------- -/

theorem strData_inj {s t : String} (h : s.data = t.data) : s = t := by
  cases s
  cases t
  exact congrArg String.mk h

theorem strData_append (s t : String) : (s ++ t).data = s.data ++ t.data := by
  cases s
  cases t
  rfl

theorem strContains_intro (msg pre part post : String)
    (h : msg = pre ++ part ++ post) : strContains msg part :=
  ⟨pre, post, h⟩

theorem tf_output_trace (w : World) :
    (tf_output w).2 = [] ∨ (tf_output w).2 = [Ev.tfQuery] := by
  unfold tf_output
  split
  · left
    rfl
  · split
    · right
      rfl
    · right
      rfl

/- ---------------------------------------------------------------
C2: the spec claims the provisioner query is primary and the
environment variables are the fallback; the code does the opposite.
--------------------------------------------------------------- -/

/-- C2 (counterexample): with all three environment variables set,
`tf_output` issues no provisioner query at all (its trace is empty,
refuting "exactly one provisioner query attempt per invocation") and
returns the environment-derived Endpoint Set even though the
provisioner query is configured to succeed with different values. -/
theorem tf_output_env_first_counterexample :
    (tf_output wEnvSet).2 = [] ∧
    tf_output wEnvSet =
      (.ok ⟨some "10.0.0.5", some "10.0.0.9", some "10.0.0.7"⟩, []) ∧
    wEnvSet.tfQueryOk = true ∧
    wEnvSet.tfOuts ≠ ⟨some "10.0.0.5", some "10.0.0.9", some "10.0.0.7"⟩ :=
  ⟨by decide, by decide, by decide, by decide⟩

/-- C2 (amended): the Infrastructure Query first reads the three
environment variables; if all three are truthy it returns the Endpoint
Set built from them and performs no provisioner query; otherwise it
performs exactly one provisioner query, returning its outputs on
success and failing with no further fallback on non-zero exit. -/
theorem tf_output_env_primary_tf_fallback (w : World) :
    ((truthy w.envAppVmIp && truthy w.envWebVmIp
        && truthy w.envAppPrivateIp) = true →
      tf_output w = (.ok (envTfOuts w), [])) ∧
    ((truthy w.envAppVmIp && truthy w.envWebVmIp
        && truthy w.envAppPrivateIp) = false →
      (tf_output w).2 = [Ev.tfQuery] ∧
      (w.tfQueryOk = true → (tf_output w).1 = .ok w.tfOuts) ∧
      (w.tfQueryOk = false →
        (tf_output w).1 = .error ("Terraform output failed: " ++ w.tfErrMsg))) := by
  constructor
  · intro h
    simp [tf_output, h]
  · intro h
    cases htf : w.tfQueryOk <;> simp [tf_output, h, htf]

/-- C2 (witness): both branches of the amended contract evaluated on
concrete worlds. -/
theorem tf_output_fallback_witness :
    tf_output wEnvSet = (.ok (envTfOuts wEnvSet), []) ∧
    (tf_output w0).2 = [Ev.tfQuery] ∧ (tf_output w0).1 = .ok w0.tfOuts :=
  ⟨(tf_output_env_primary_tf_fallback wEnvSet).1 (by decide),
   ((tf_output_env_primary_tf_fallback w0).2 (by decide)).1,
   ((tf_output_env_primary_tf_fallback w0).2 (by decide)).2.1 (by decide)⟩

/-- C10: whenever `APP_VM_IP`, `WEB_VM_IP` and `APP_PRIVATE_IP` are all
set to non-empty strings, the Infrastructure Query returns the Endpoint
Set built from them and never invokes the provisioner query. -/
theorem tf_output_env_vars_short_circuit (w : World) (a b c : String)
    (ha : w.envAppVmIp = some a) (hb : w.envWebVmIp = some b)
    (hc : w.envAppPrivateIp = some c)
    (hna : a ≠ "") (hnb : b ≠ "") (hnc : c ≠ "") :
    tf_output w = (.ok ⟨some a, some b, some c⟩, []) ∧
    Ev.tfQuery ∉ (tf_output w).2 := by
  have hta : truthy (some a) = true := by
    simp [truthy, hna]
  have htb : truthy (some b) = true := by
    simp [truthy, hnb]
  have htc : truthy (some c) = true := by
    simp [truthy, hnc]
  constructor
  · simp [tf_output, ha, hb, hc, hta, htb, htc, envTfOuts]
  · simp [tf_output, ha, hb, hc, hta, htb, htc]

/-- C10 (witness). -/
theorem tf_output_env_witness :
    tf_output wEnvSet =
      (.ok ⟨some "10.0.0.5", some "10.0.0.9", some "10.0.0.7"⟩, []) ∧
    Ev.tfQuery ∉ (tf_output wEnvSet).2 :=
  tf_output_env_vars_short_circuit wEnvSet "10.0.0.5" "10.0.0.9" "10.0.0.7"
    rfl rfl rfl (by decide) (by decide) (by decide)

/- ---------------------------------------------------------------
C1: missing endpoint values abort deploy before any remote contact.
--------------------------------------------------------------- -/

/-- C1: if the Infrastructure Query succeeds but any of the three
endpoint values is missing or empty, `deploy` fails with the
missing-outputs error and its whole trace contains no remote event
(no session open, no command, no transfer): at most the local
provisioner query. -/
theorem deploy_missing_outputs_fails_before_remote (w : World)
    (ssh_key admin_user app_dir : String) (port workers : Nat) (outs : TfOuts)
    (h1 : (tf_output w).1 = .ok outs)
    (h2 : (truthy outs.web_public_ip && truthy outs.app_public_ip
      && truthy outs.app_private_ip) = false) :
    (deploy w ssh_key admin_user port workers app_dir).1 =
      .error "Missing Terraform outputs (web/app public/private IPs)." ∧
    ∀ e ∈ (deploy w ssh_key admin_user port workers app_dir).2, e = Ev.tfQuery := by
  rcases htf : tf_output w with ⟨res, tr⟩
  have hres : res = .ok outs := by
    rw [htf] at h1
    exact h1
  subst hres
  have htr : ∀ e ∈ tr, e = Ev.tfQuery := by
    rcases tf_output_trace w with h | h <;> rw [htf] at h <;> simp at h <;> simp [h]
  constructor
  · simp [deploy, htf, h2]
  · intro e he
    apply htr
    simpa [deploy, htf, h2] using he

/-- C1 (witness): a provisioner result missing the proxy-host address
makes `deploy` fail with the missing-outputs error and issue no remote
event. -/
theorem deploy_missing_witness :
    (deploy wMissingOut "key" "devcloud" 8000 3 "flaskapp").1 =
      .error "Missing Terraform outputs (web/app public/private IPs)." ∧
    ∀ e ∈ (deploy wMissingOut "key" "devcloud" 8000 3 "flaskapp").2,
      e = Ev.tfQuery :=
  deploy_missing_outputs_fails_before_remote wMissingOut "key" "devcloud"
    "flaskapp" 8000 3 ⟨some "1.2.3.4", none, some "10.0.0.7"⟩
    (by decide) (by decide)

/- ---------------------------------------------------------------
C3: the remote command executor's exit-status contract.
--------------------------------------------------------------- -/

/-- C3: a zero-exit remote command returns exactly the decoded captured
stdout; a non-zero-exit command raises an error whose message contains
the exit code, the command, and both captured streams; in both cases
exactly one command execution is issued (never swallowed, never
retried). -/
theorem run_exit_status_contract (w : World) (host cmd : String) :
    ((w.cmdRes host cmd).1 = 0 →
      run w host cmd = (.ok (w.cmdRes host cmd).2.1, [Ev.execCmd host cmd])) ∧
    ((w.cmdRes host cmd).1 ≠ 0 → ∃ msg,
      run w host cmd = (.error msg, [Ev.execCmd host cmd]) ∧
      strContains msg (toString (w.cmdRes host cmd).1) ∧
      strContains msg cmd ∧
      strContains msg (w.cmdRes host cmd).2.1 ∧
      strContains msg (w.cmdRes host cmd).2.2) := by
  constructor
  · intro h
    simp [run, h]
  · intro h
    refine ⟨"Command failed (" ++ toString (w.cmdRes host cmd).1 ++ "): " ++ cmd
      ++ "\nSTDOUT: " ++ (w.cmdRes host cmd).2.1
      ++ "\nSTDERR: " ++ (w.cmdRes host cmd).2.2,
      by simp [run, h], ?_, ?_, ?_, ?_⟩
    · refine strContains_intro _ "Command failed ("
        (toString (w.cmdRes host cmd).1)
        ("): " ++ cmd ++ "\nSTDOUT: " ++ (w.cmdRes host cmd).2.1
          ++ "\nSTDERR: " ++ (w.cmdRes host cmd).2.2) ?_
      apply strData_inj
      simp [strData_append, List.append_assoc]
    · refine strContains_intro _
        ("Command failed (" ++ toString (w.cmdRes host cmd).1 ++ "): ") cmd
        ("\nSTDOUT: " ++ (w.cmdRes host cmd).2.1
          ++ "\nSTDERR: " ++ (w.cmdRes host cmd).2.2) ?_
      apply strData_inj
      simp [strData_append, List.append_assoc]
    · refine strContains_intro _
        ("Command failed (" ++ toString (w.cmdRes host cmd).1 ++ "): " ++ cmd
          ++ "\nSTDOUT: ") ((w.cmdRes host cmd).2.1)
        ("\nSTDERR: " ++ (w.cmdRes host cmd).2.2) ?_
      apply strData_inj
      simp [strData_append, List.append_assoc]
    · refine strContains_intro _
        ("Command failed (" ++ toString (w.cmdRes host cmd).1 ++ "): " ++ cmd
          ++ "\nSTDOUT: " ++ (w.cmdRes host cmd).2.1 ++ "\nSTDERR: ")
        ((w.cmdRes host cmd).2.2) "" ?_
      apply strData_inj
      simp [strData_append, List.append_assoc]

/-- C3 (witness): the failing `nginx -t` command of `wCmdFail`. -/
theorem run_contract_witness :
    (wCmdFail.cmdRes "203.0.113.20" "sudo nginx -t").1 ≠ 0 ∧
    ∃ msg, run wCmdFail "203.0.113.20" "sudo nginx -t" =
        (.error msg, [Ev.execCmd "203.0.113.20" "sudo nginx -t"]) ∧
      strContains msg (toString (wCmdFail.cmdRes "203.0.113.20" "sudo nginx -t").1) ∧
      strContains msg "sudo nginx -t" ∧
      strContains msg (wCmdFail.cmdRes "203.0.113.20" "sudo nginx -t").2.1 ∧
      strContains msg (wCmdFail.cmdRes "203.0.113.20" "sudo nginx -t").2.2 :=
  ⟨by decide,
   (run_exit_status_contract wCmdFail "203.0.113.20" "sudo nginx -t").2 (by decide)⟩

/- ---------------------------------------------------------------
C9: key loading aggregates all per-format errors.
--------------------------------------------------------------- -/

/-- C9: if none of the three supported key encodings parses, key loading
raises a single failure whose message contains every per-format error;
if at least one encoding parses, a key is returned and no error is
raised. -/
theorem load_private_key_aggregates_errors (w : World) (path : String) :
    ((∀ f : KeyFmt, ∃ e, w.keyTry f path = .error e) →
      ∃ msg, load_private_key w path = .error msg ∧
        ∀ f e, w.keyTry f path = .error e → strContains msg e) ∧
    ((∃ f k, w.keyTry f path = .ok k) →
      ∃ k, load_private_key w path = .ok k) := by
  constructor
  · intro h
    obtain ⟨e1, h1⟩ := h KeyFmt.ed25519
    obtain ⟨e2, h2⟩ := h KeyFmt.rsa
    obtain ⟨e3, h3⟩ := h KeyFmt.ecdsa
    refine ⟨"Could not load private key " ++ path ++ ". Errors: ["
      ++ e1 ++ ", " ++ e2 ++ ", " ++ e3 ++ "]",
      by simp [load_private_key, h1, h2, h3], ?_⟩
    intro f e he
    cases f
    case ed25519 =>
      have heq : e1 = e := by
        have := h1.symm.trans he
        injection this
      subst heq
      refine strContains_intro _ ("Could not load private key " ++ path
        ++ ". Errors: [") e1 (", " ++ e2 ++ ", " ++ e3 ++ "]") ?_
      apply strData_inj
      simp [strData_append, List.append_assoc]
    case rsa =>
      have heq : e2 = e := by
        have := h2.symm.trans he
        injection this
      subst heq
      refine strContains_intro _ ("Could not load private key " ++ path
        ++ ". Errors: [" ++ e1 ++ ", ") e2 (", " ++ e3 ++ "]") ?_
      apply strData_inj
      simp [strData_append, List.append_assoc]
    case ecdsa =>
      have heq : e3 = e := by
        have := h3.symm.trans he
        injection this
      subst heq
      refine strContains_intro _ ("Could not load private key " ++ path
        ++ ". Errors: [" ++ e1 ++ ", " ++ e2 ++ ", ") e3 "]" ?_
      apply strData_inj
      simp [strData_append, List.append_assoc]
  · rintro ⟨f, k, hk⟩
    cases f
    case ed25519 =>
      exact ⟨k, by simp [load_private_key, hk]⟩
    case rsa =>
      cases h1 : w.keyTry KeyFmt.ed25519 path
      case ok k' =>
        exact ⟨k', by simp [load_private_key, h1]⟩
      case error e1 =>
        exact ⟨k, by simp [load_private_key, h1, hk]⟩
    case ecdsa =>
      cases h1 : w.keyTry KeyFmt.ed25519 path
      case ok k' =>
        exact ⟨k', by simp [load_private_key, h1]⟩
      case error e1 =>
        cases h2 : w.keyTry KeyFmt.rsa path
        case ok k' =>
          exact ⟨k', by simp [load_private_key, h1, h2]⟩
        case error e2 =>
          exact ⟨k, by simp [load_private_key, h1, h2, hk]⟩

/- ---------------------------------------------------------------
C5: each routine's session is closed on every exit path.
--------------------------------------------------------------- -/

theorem run_trace (w : World) (host cmd : String) :
    (run w host cmd).2 = [Ev.execCmd host cmd] := by
  simp only [run]
  split <;> rfl

theorem putOne_file_eq (w : World) (host n c rdir : String) :
    putOne w host (FsTree.file n c) rdir =
      ((if w.putFails host (joinPath rdir n) = true
        then Except.error ("Upload failed: " ++ joinPath rdir n)
        else Except.ok ()), [Ev.putFile host (joinPath rdir n) c]) := by
  simp only [putOne]
  split <;> rfl

theorem putOne_dir_eq (w : World) (host n : String) (cs : FsList) (rdir : String) :
    putOne w host (FsTree.dir n cs) rdir =
      ((putItems w host cs (joinPath rdir n)).1,
        Ev.mkdir host (joinPath rdir n) :: Ev.mkdir host (joinPath rdir n) ::
          (putItems w host cs (joinPath rdir n)).2) := by
  simp only [putOne]

theorem putItems_nil (w : World) (host rdir : String) :
    putItems w host FsList.nil rdir = (.ok (), []) := rfl

theorem putItems_cons_error (w : World) (host : String) (item : FsTree)
    (rest : FsList) (rdir er : String)
    (hr : (putOne w host item rdir).1 = .error er) :
    putItems w host (FsList.cons item rest) rdir =
      (.error er, (putOne w host item rdir).2) := by
  simp only [putItems]
  rw [hr]

theorem putItems_cons_ok (w : World) (host : String) (item : FsTree)
    (rest : FsList) (rdir : String) (u : Unit)
    (hr : (putOne w host item rdir).1 = .ok u) :
    putItems w host (FsList.cons item rest) rdir =
      ((putItems w host rest rdir).1,
        (putOne w host item rdir).2 ++ (putItems w host rest rdir).2) := by
  simp only [putItems]
  rw [hr]

theorem sftp_put_dir_eq (w : World) (host : String) (items : FsList) (rdir : String) :
    sftp_put_dir w host items rdir =
      ((putItems w host items rdir).1,
        Ev.mkdir host rdir :: (putItems w host items rdir).2) := rfl

theorem sftp_write_trace (w : World) (host path content : String) :
    (sftp_write w host path content).2 = [Ev.sftpWrite host path content] := by
  unfold sftp_write
  split <;> rfl

theorem seqStep_trace {α β : Type} (a : Except String α × List Ev)
    (b : Except String β × List Ev) :
    (seqStep a b).2 = a.2 ∨ (seqStep a b).2 = a.2 ++ b.2 := by
  unfold seqStep
  cases a.1 <;> simp

theorem noSession_append {t1 t2 : List Ev}
    (h1 : ∀ e ∈ t1, isSessionEv e = false)
    (h2 : ∀ e ∈ t2, isSessionEv e = false) :
    ∀ e ∈ t1 ++ t2, isSessionEv e = false := by
  intro e he
  rcases List.mem_append.mp he with h | h
  · exact h1 e h
  · exact h2 e h

theorem noSession_seqStep {α β : Type} {a : Except String α × List Ev}
    {b : Except String β × List Ev}
    (h1 : ∀ e ∈ a.2, isSessionEv e = false)
    (h2 : ∀ e ∈ b.2, isSessionEv e = false) :
    ∀ e ∈ (seqStep a b).2, isSessionEv e = false := by
  rcases seqStep_trace a b with h | h <;> rw [h]
  · exact h1
  · exact noSession_append h1 h2

theorem noSession_run (w : World) (host cmd : String) :
    ∀ e ∈ (run w host cmd).2, isSessionEv e = false := by
  rw [run_trace]
  intro e he
  simp at he
  simp [he, isSessionEv]

theorem noSession_sftp_write (w : World) (host path content : String) :
    ∀ e ∈ (sftp_write w host path content).2, isSessionEv e = false := by
  rw [sftp_write_trace]
  intro e he
  simp at he
  simp [he, isSessionEv]

mutual
theorem noSession_putOne (w : World) (host : String) (t : FsTree) (rdir : String) :
    ∀ e ∈ (putOne w host t rdir).2, isSessionEv e = false := by
  cases t with
  | file n c =>
    intro e he
    rw [putOne_file_eq] at he
    simp at he
    simp [he, isSessionEv]
  | dir n cs =>
    intro e he
    rw [putOne_dir_eq] at he
    simp at he
    rcases he with he | he
    · simp [he, isSessionEv]
    · exact noSession_putItems w host cs (joinPath rdir n) e he

theorem noSession_putItems (w : World) (host : String) (l : FsList) (rdir : String) :
    ∀ e ∈ (putItems w host l rdir).2, isSessionEv e = false := by
  cases l with
  | nil =>
    intro e he
    simp [putItems_nil] at he
  | cons item rest =>
    intro e he
    cases hr : (putOne w host item rdir).1 with
    | error er =>
      rw [putItems_cons_error w host item rest rdir er hr] at he
      simp at he
      exact noSession_putOne w host item rdir e he
    | ok u =>
      rw [putItems_cons_ok w host item rest rdir u hr] at he
      simp at he
      rcases he with he | he
      · exact noSession_putOne w host item rdir e he
      · exact noSession_putItems w host rest rdir e he
end

theorem noSession_sftp_put_dir (w : World) (host : String) (items : FsList)
    (rdir : String) :
    ∀ e ∈ (sftp_put_dir w host items rdir).2, isSessionEv e = false := by
  intro e he
  rw [sftp_put_dir_eq] at he
  simp at he
  rcases he with he | he
  · simp [he, isSessionEv]
  · exact noSession_putItems w host items rdir e he

theorem noSession_appBody (w : World) (host admin_user : String)
    (port workers : Nat) (app_dir_name : String) :
    ∀ e ∈ (appBody w host admin_user port workers app_dir_name).2,
      isSessionEv e = false := by
  unfold appBody toUnit
  refine noSession_seqStep (noSession_run w host _) ?_
  refine noSession_seqStep (noSession_run w host _) ?_
  refine noSession_seqStep (noSession_sftp_put_dir w host _ _) ?_
  refine noSession_seqStep (noSession_run w host _) ?_
  refine noSession_seqStep (noSession_run w host _) ?_
  refine noSession_seqStep (noSession_run w host _) ?_
  refine noSession_seqStep (noSession_sftp_write w host _ _) ?_
  refine noSession_seqStep (noSession_run w host _) ?_
  exact noSession_seqStep (noSession_run w host _) (noSession_run w host _)

theorem noSession_webBody (w : World) (host app_private_ip admin_user : String)
    (port : Nat) :
    ∀ e ∈ (webBody w host app_private_ip admin_user port).2,
      isSessionEv e = false := by
  unfold webBody toUnit
  refine noSession_seqStep (noSession_run w host _) ?_
  refine noSession_seqStep (noSession_sftp_write w host _ _) ?_
  refine noSession_seqStep (noSession_run w host _) ?_
  exact noSession_seqStep (noSession_run w host _) (noSession_run w host _)

/-- C5: for both deployment routines, the remote session opened at
routine entry is closed before the routine returns on every exit path
(success or failure of any intermediate step); when session
establishment itself fails, no session event is issued at all. -/
theorem routines_close_session_every_path (w : World)
    (app_ip web_ip app_private admin_user key_path app_dir_name : String)
    (port workers : Nat) :
    sessionScoped
      (deploy_app_vm w app_ip admin_user key_path port workers app_dir_name).2
      app_ip ∧
    sessionScoped
      (deploy_web_vm w web_ip app_private admin_user key_path port).2 web_ip := by
  constructor
  · cases h : ssh_client w app_ip admin_user key_path with
    | error e =>
      left
      simp [deploy_app_vm, h]
    | ok u =>
      right
      refine ⟨(appBody w app_ip admin_user port workers app_dir_name).2, ?_, ?_⟩
      · simp [deploy_app_vm, h]
      · exact noSession_appBody w app_ip admin_user port workers app_dir_name
  · cases h : ssh_client w web_ip admin_user key_path with
    | error e =>
      left
      simp [deploy_web_vm, h]
    | ok u =>
      right
      refine ⟨(webBody w web_ip app_private admin_user port).2, ?_, ?_⟩
      · simp [deploy_web_vm, h]
      · exact noSession_webBody w web_ip app_private admin_user port

/- ---------------------------------------------------------------
C6: mkdir failures are swallowed, upload failures propagate.
--------------------------------------------------------------- -/

mutual
theorem okIffPutsOne (w : World) (host : String) (t : FsTree) (rdir : String) :
    (putOne w host t rdir).1 = .ok () ↔
      ∀ pc ∈ filePathsOne t rdir, w.putFails host pc.1 = false := by
  cases t with
  | file n c =>
    cases hf : w.putFails host (joinPath rdir n) <;>
      simp [putOne_file_eq, filePathsOne, hf]
  | dir n cs =>
    simpa [putOne_dir_eq, filePathsOne] using
      okIffPutsList w host cs (joinPath rdir n)

theorem okIffPutsList (w : World) (host : String) (l : FsList) (rdir : String) :
    (putItems w host l rdir).1 = .ok () ↔
      ∀ pc ∈ filePathsList l rdir, w.putFails host pc.1 = false := by
  cases l with
  | nil => simp [putItems_nil, filePathsList]
  | cons item rest =>
    have hone := okIffPutsOne w host item rdir
    have hrest := okIffPutsList w host rest rdir
    cases hr : (putOne w host item rdir).1 with
    | error e =>
      have hL : (putItems w host (FsList.cons item rest) rdir).1 = .error e := by
        simp [putItems_cons_error w host item rest rdir e hr]
      have hnone : ¬ ∀ pc ∈ filePathsOne item rdir, w.putFails host pc.1 = false := by
        intro hA
        have hok := hone.mpr hA
        rw [hr] at hok
        exact Except.noConfusion hok
      constructor
      · intro h
        rw [hL] at h
        exact Except.noConfusion h
      · intro hall
        exact ((hnone fun pc hpc => hall pc
          (List.mem_append_left _ hpc)).elim)
    | ok u =>
      cases u
      have hAone : ∀ pc ∈ filePathsOne item rdir, w.putFails host pc.1 = false :=
        hone.mp hr
      have hL : (putItems w host (FsList.cons item rest) rdir).1 =
          (putItems w host rest rdir).1 := by
        simp [putItems_cons_ok w host item rest rdir () hr]
      rw [hL]
      constructor
      · intro h pc hpc
        rcases List.mem_append.mp (by simpa [filePathsList] using hpc) with hm | hm
        · exact hAone pc hm
        · exact (hrest.mp h) pc hm
      · intro hall
        exact hrest.mpr fun pc hpc => hall pc
          (by simp [filePathsList]; exact Or.inr hpc)
end

/-- C6: a transfer succeeds exactly when every file upload succeeds —
independently of which remote directory creations fail (every `mkdir`
failure, e.g. directory already exists, is swallowed, so re-running
against a partially existing destination does not fail on existing
directories), while any file-upload failure propagates to the caller. -/
theorem sftp_put_dir_mkdir_ignored_put_propagates (w : World) (host : String)
    (items : FsList) (rdir : String) :
    (sftp_put_dir w host items rdir).1 = .ok () ↔
      ∀ pc ∈ filePathsList items rdir, w.putFails host pc.1 = false := by
  have h : (sftp_put_dir w host items rdir).1 = (putItems w host items rdir).1 := rfl
  rw [h]
  exact okIffPutsList w host items rdir

/- ---------------------------------------------------------------
C8: a successful transfer reproduces the local tree.
--------------------------------------------------------------- -/

mutual
theorem putsSound_one (w : World) (host : String) (t : FsTree) (rdir : String) :
    ∀ p c, Ev.putFile host p c ∈ (putOne w host t rdir).2 →
      (p, c) ∈ filePathsOne t rdir := by
  cases t with
  | file n c' =>
    intro p c hp
    rw [putOne_file_eq] at hp
    simp at hp
    obtain ⟨rfl, rfl⟩ := hp
    simp [filePathsOne]
  | dir n cs =>
    intro p c hp
    rw [putOne_dir_eq] at hp
    simp at hp
    simpa [filePathsOne] using putsSound_list w host cs (joinPath rdir n) p c hp

theorem putsSound_list (w : World) (host : String) (l : FsList) (rdir : String) :
    ∀ p c, Ev.putFile host p c ∈ (putItems w host l rdir).2 →
      (p, c) ∈ filePathsList l rdir := by
  cases l with
  | nil =>
    intro p c hp
    simp [putItems_nil] at hp
  | cons item rest =>
    intro p c hp
    cases hr : (putOne w host item rdir).1 with
    | error er =>
      rw [putItems_cons_error w host item rest rdir er hr] at hp
      simp at hp
      simp [filePathsList]
      exact Or.inl (putsSound_one w host item rdir p c hp)
    | ok u =>
      rw [putItems_cons_ok w host item rest rdir u hr] at hp
      simp at hp
      simp [filePathsList]
      rcases hp with hp | hp
      · exact Or.inl (putsSound_one w host item rdir p c hp)
      · exact Or.inr (putsSound_list w host rest rdir p c hp)
end

mutual
theorem reproduces_one (w : World) (host : String) (t : FsTree) (rdir : String)
    (h : (putOne w host t rdir).1 = .ok ()) :
    (∀ d ∈ dirPathsOne t rdir, Ev.mkdir host d ∈ (putOne w host t rdir).2) ∧
    (∀ pc ∈ filePathsOne t rdir,
      Ev.putFile host pc.1 pc.2 ∈ (putOne w host t rdir).2) := by
  cases t with
  | file n c =>
    constructor
    · intro d hd
      simp [dirPathsOne] at hd
    · intro pc hpc
      simp [filePathsOne] at hpc
      rw [putOne_file_eq]
      simp [hpc]
  | dir n cs =>
    rw [putOne_dir_eq] at h
    simp at h
    have ih := reproduces_list w host cs (joinPath rdir n) h
    constructor
    · intro d hd
      rw [putOne_dir_eq]
      simp [dirPathsOne] at hd
      rcases hd with rfl | hd
      · exact List.mem_cons_self _ _
      · exact List.mem_cons_of_mem _ (List.mem_cons_of_mem _ (ih.1 d hd))
    · intro pc hpc
      rw [putOne_dir_eq]
      simp only [filePathsOne] at hpc
      exact List.mem_cons_of_mem _ (List.mem_cons_of_mem _ (ih.2 pc hpc))

theorem reproduces_list (w : World) (host : String) (l : FsList) (rdir : String)
    (h : (putItems w host l rdir).1 = .ok ()) :
    (∀ d ∈ dirPathsList l rdir, Ev.mkdir host d ∈ (putItems w host l rdir).2) ∧
    (∀ pc ∈ filePathsList l rdir,
      Ev.putFile host pc.1 pc.2 ∈ (putItems w host l rdir).2) := by
  cases l with
  | nil =>
    constructor
    · intro d hd
      simp [dirPathsList] at hd
    · intro pc hpc
      simp [filePathsList] at hpc
  | cons item rest =>
    cases hr : (putOne w host item rdir).1 with
    | error er =>
      rw [putItems_cons_error w host item rest rdir er hr] at h
      simp at h
    | ok u =>
      cases u
      rw [putItems_cons_ok w host item rest rdir () hr] at h
      simp at h
      have ih1 := reproduces_one w host item rdir hr
      have ih2 := reproduces_list w host rest rdir h
      rw [putItems_cons_ok w host item rest rdir () hr]
      constructor
      · intro d hd
        simp only [dirPathsList] at hd
        rcases List.mem_append.mp hd with hd | hd
        · exact List.mem_append_left _ (ih1.1 d hd)
        · exact List.mem_append_right _ (ih2.1 d hd)
      · intro pc hpc
        simp only [filePathsList] at hpc
        rcases List.mem_append.mp hpc with hpc | hpc
        · exact List.mem_append_left _ (ih1.2 pc hpc)
        · exact List.mem_append_right _ (ih2.2 pc hpc)
end

/-- C8: a successful run of the transfer issues a directory creation for
the destination root and for every directory of the tree, and an upload
of every file of the tree (with its content) to its corresponding
remote path; conversely every upload issued comes from a file of the
tree — the destination reproduces the local tree's structure and file
contents byte-for-byte. -/
theorem sftp_put_dir_reproduces_tree (w : World) (host : String) (items : FsList)
    (rdir : String) (h : (sftp_put_dir w host items rdir).1 = .ok ()) :
    Ev.mkdir host rdir ∈ (sftp_put_dir w host items rdir).2 ∧
    (∀ d ∈ dirPathsList items rdir,
      Ev.mkdir host d ∈ (sftp_put_dir w host items rdir).2) ∧
    (∀ pc ∈ filePathsList items rdir,
      Ev.putFile host pc.1 pc.2 ∈ (sftp_put_dir w host items rdir).2) ∧
    (∀ p c, Ev.putFile host p c ∈ (sftp_put_dir w host items rdir).2 →
      (p, c) ∈ filePathsList items rdir) := by
  have hp : (putItems w host items rdir).1 = .ok () := h
  have hrep := reproduces_list w host items rdir hp
  rw [sftp_put_dir_eq]
  refine ⟨List.mem_cons_self _ _, ?_, ?_, ?_⟩
  · intro d hd
    exact List.mem_cons_of_mem _ (hrep.1 d hd)
  · intro pc hpc
    exact List.mem_cons_of_mem _ (hrep.2 pc hpc)
  · intro p c hpc
    rcases List.mem_cons.mp hpc with heq | hm
    · exact absurd heq (by simp)
    · exact putsSound_list w host items rdir p c hm

/-- C8 (witness): the demo tree transferred by `w0`. -/
theorem sftp_reproduces_witness :
    (sftp_put_dir w0 "203.0.113.10" demoTree "/srv/dst").1 = .ok () ∧
    (Ev.mkdir "203.0.113.10" "/srv/dst" ∈
        (sftp_put_dir w0 "203.0.113.10" demoTree "/srv/dst").2 ∧
      (∀ d ∈ dirPathsList demoTree "/srv/dst",
        Ev.mkdir "203.0.113.10" d ∈
          (sftp_put_dir w0 "203.0.113.10" demoTree "/srv/dst").2) ∧
      (∀ pc ∈ filePathsList demoTree "/srv/dst",
        Ev.putFile "203.0.113.10" pc.1 pc.2 ∈
          (sftp_put_dir w0 "203.0.113.10" demoTree "/srv/dst").2) ∧
      (∀ p c, Ev.putFile "203.0.113.10" p c ∈
          (sftp_put_dir w0 "203.0.113.10" demoTree "/srv/dst").2 →
        (p, c) ∈ filePathsList demoTree "/srv/dst")) :=
  ⟨by decide,
   sftp_put_dir_reproduces_tree w0 "203.0.113.10" demoTree "/srv/dst" (by decide)⟩

/- ---------------------------------------------------------------
C4: application routine strictly before proxy routine, no rollback.
--------------------------------------------------------------- -/

/-- C4: when the endpoint check passes, `deploy` runs the
application-host routine first; if it fails, `deploy` returns that very
error and its trace ends with the application routine's trace — the
proxy-host routine is never attempted and nothing else (no compensating
rollback) is issued; if it succeeds, the proxy-host routine's trace
follows the application routine's trace in full. -/
theorem deploy_app_before_web_no_rollback (w : World)
    (ssh_key admin_user app_dir : String) (port workers : Nat)
    (outs : TfOuts) (tfTr : List Ev)
    (h1 : tf_output w = (.ok outs, tfTr))
    (h2 : (truthy outs.web_public_ip && truthy outs.app_public_ip
      && truthy outs.app_private_ip) = true) :
    (∀ er, (deploy_app_vm w (outs.app_public_ip.getD "") admin_user ssh_key
        port workers app_dir).1 = .error er →
      deploy w ssh_key admin_user port workers app_dir =
        (.error er, tfTr ++ (deploy_app_vm w (outs.app_public_ip.getD "")
          admin_user ssh_key port workers app_dir).2)) ∧
    ((deploy_app_vm w (outs.app_public_ip.getD "") admin_user ssh_key
        port workers app_dir).1 = .ok () →
      deploy w ssh_key admin_user port workers app_dir =
        ((deploy_web_vm w (outs.web_public_ip.getD "")
            (outs.app_private_ip.getD "") admin_user ssh_key port).1,
          tfTr ++ (deploy_app_vm w (outs.app_public_ip.getD "") admin_user
            ssh_key port workers app_dir).2
            ++ (deploy_web_vm w (outs.web_public_ip.getD "")
              (outs.app_private_ip.getD "") admin_user ssh_key port).2)) := by
  constructor
  · intro er her
    simp [deploy, h1, h2, her]
  · intro hok
    simp [deploy, h1, h2, hok]

/-- C4 (witness): a fully successful deployment through `wEnvSet`. -/
theorem deploy_order_witness :
    (deploy_app_vm wEnvSet "10.0.0.5" "devcloud" "key" 8000 3 "flaskapp").1
      = .ok () ∧
    deploy wEnvSet "key" "devcloud" 8000 3 "flaskapp" =
      ((deploy_web_vm wEnvSet "10.0.0.9" "10.0.0.7" "devcloud" "key" 8000).1,
        [] ++ (deploy_app_vm wEnvSet "10.0.0.5" "devcloud" "key" 8000 3 "flaskapp").2
          ++ (deploy_web_vm wEnvSet "10.0.0.9" "10.0.0.7" "devcloud" "key" 8000).2) :=
  ⟨by decide,
   (deploy_app_before_web_no_rollback wEnvSet "key" "devcloud" "flaskapp" 8000 3
     ⟨some "10.0.0.5", some "10.0.0.9", some "10.0.0.7"⟩ [] (by decide)
     (by decide)).2 (by decide)⟩

/-- C9 (witness): all three formats failing on `wKeyFail`. -/
theorem load_key_witness :
    ∃ msg, load_private_key wKeyFail "/k" = .error msg ∧
      ∀ f e, wKeyFail.keyTry f "/k" = .error e → strContains msg e :=
  (load_private_key_aggregates_errors wKeyFail "/k").1
    (fun f => match f with
      | KeyFmt.ed25519 => ⟨"not an OpenSSH key", by decide⟩
      | KeyFmt.rsa => ⟨"not a valid RSA key", by decide⟩
      | KeyFmt.ecdsa => ⟨"not a valid EC key", by decide⟩)

/- ---------------------------------------------------------------
C7: every ancestor directory is created before a file beneath it is
uploaded.  The path arithmetic below relates the remote path of an
uploaded file to the chain of remote directory paths traversed to
reach it.
--------------------------------------------------------------- -/

theorem appCancelLeft {α : Type} : ∀ (D A B : List α), D ++ A = D ++ B → A = B := by
  intro D
  induction D with
  | nil =>
    intro A B h
    simpa using h
  | cons x D ih =>
    intro A B h
    rw [List.cons_append, List.cons_append] at h
    injection h with h1 h2
    exact ih A B h2

theorem splitMid {α : Type} (xs ys t1 t2 : List α) (e : α)
    (h : xs ++ ys = t1 ++ e :: t2) :
    (∃ t2a, xs = t1 ++ e :: t2a ∧ t2 = t2a ++ ys) ∨
    (∃ t1b, t1 = xs ++ t1b ∧ ys = t1b ++ e :: t2) := by
  induction xs generalizing t1 with
  | nil =>
    right
    exact ⟨t1, rfl, by simpa using h⟩
  | cons x xs ih =>
    cases t1 with
    | nil =>
      left
      simp at h
      exact ⟨xs, by simp [h.1], h.2.symm⟩
    | cons y t1' =>
      simp at h
      rcases ih t1' h.2 with ⟨t2a, ha, hb⟩ | ⟨t1b, ha, hb⟩
      · left
        exact ⟨t2a, by simp [h.1, ha], hb⟩
      · right
        exact ⟨t1b, by simp [h.1, ha], hb⟩

theorem slashSplit : ∀ (x1 x2 y1 y2 : List Char), '/' ∉ x1 → '/' ∉ x2 →
    x1 ++ '/' :: y1 = x2 ++ '/' :: y2 → x1 = x2 ∧ y1 = y2 := by
  intro x1
  induction x1 with
  | nil =>
    intro x2 y1 y2 h1 h2 h
    cases x2 with
    | nil => simpa using h
    | cons c x2' =>
      simp at h
      exact absurd (by rw [← h.1]; exact List.mem_cons_self _ _) h2
  | cons a x1' ih =>
    intro x2 y1 y2 h1 h2 h
    cases x2 with
    | nil =>
      simp at h
      exact absurd (by rw [h.1]; exact List.mem_cons_self _ _) h1
    | cons b x2' =>
      simp at h
      have hx1 : ('/' : Char) ∉ x1' := fun hm => h1 (List.mem_cons_of_mem _ hm)
      have hx2 : ('/' : Char) ∉ x2' := fun hm => h2 (List.mem_cons_of_mem _ hm)
      rcases ih x2' y1 y2 hx1 hx2 h.2 with ⟨he, hy⟩
      exact ⟨by rw [h.1, he], hy⟩

theorem goodName_props (n : String) (h : goodNameB n = true) :
    n.data ≠ [] ∧ '/' ∉ n.data := by
  unfold goodNameB at h
  rw [Bool.and_eq_true] at h
  have h1 := of_decide_eq_true h.1
  have h2 := of_decide_eq_true h.2
  refine ⟨?_, h2⟩
  intro hd
  exact h1 (strData_inj (by rw [hd]))

theorem joinPath_data (r n : String) :
    (joinPath r n).data = (rstripSlash r).data ++ '/' :: n.data := by
  have h : ("/" : String).data = ['/'] := rfl
  simp [joinPath, strData_append, h]

theorem rstrip_join (r n : String) (h : goodNameB n = true) :
    rstripSlash (joinPath r n) = joinPath r n := by
  obtain ⟨hne, hns⟩ := goodName_props n h
  apply strData_inj
  cases hrev : n.data.reverse with
  | nil =>
    exact absurd (by simpa using congrArg List.reverse hrev) hne
  | cons ch r' =>
    have hc : ch ∈ n.data := by
      have hm : ch ∈ n.data.reverse := by
        rw [hrev]
        exact List.mem_cons_self _ _
      exact List.mem_reverse.mp hm
    have hcne : (ch == '/') = false := by
      apply beq_eq_false_iff_ne.mpr
      intro hcc
      exact hns (hcc ▸ hc)
    have hsrev : (joinPath r n).data.reverse =
        ch :: (r' ++ '/' :: (rstripSlash r).data.reverse) := by
      rw [joinPath_data, List.reverse_append, List.reverse_cons, hrev]
      simp
    show ((joinPath r n).data.reverse.dropWhile (fun c => c == '/')).reverse
      = (joinPath r n).data
    rw [hsrev, List.dropWhile_cons, hcne]
    simp only [Bool.false_eq_true, if_false]
    rw [← hsrev, List.reverse_reverse]

theorem chainShape {r p : String} {anc : List String} (h : ChainSpec r p anc) :
    ∃ tail, tail ≠ [] ∧ p.data = (rstripSlash r).data ++ '/' :: tail := by
  induction h with
  | base rdir n q hg hq =>
    obtain ⟨hne, _⟩ := goodName_props n hg
    exact ⟨n.data, hne, by rw [hq, joinPath_data]⟩
  | step rdir n q anc hg hsub ih =>
    obtain ⟨tail1, hne1, hp1⟩ := ih
    refine ⟨n.data ++ '/' :: tail1, by simp, ?_⟩
    rw [hp1, rstrip_join rdir n hg, joinPath_data]
    simp [List.append_assoc]

mutual
theorem chainsSpec_one (t : FsTree) (rdir : String) (hwf : wfTree t = true) :
    ∀ q anc, (q, anc) ∈ fileChainsOne t rdir → ChainSpec rdir q anc := by
  cases t with
  | file n c =>
    intro q anc hq
    simp [fileChainsOne] at hq
    simp [wfTree] at hwf
    obtain ⟨hq1, hq2⟩ := hq
    subst hq2
    exact ChainSpec.base rdir n q hwf hq1
  | dir n cs =>
    intro q anc hq
    simp only [fileChainsOne] at hq
    simp [wfTree, Bool.and_eq_true] at hwf
    obtain ⟨pa, hmem, heq⟩ := List.mem_map.mp hq
    obtain ⟨a, b⟩ := pa
    rw [Prod.mk.injEq] at heq
    obtain ⟨hq1, hq2⟩ := heq
    rw [← hq1, ← hq2]
    exact ChainSpec.step rdir n a b hwf.1
      (chainsSpec_list cs (joinPath rdir n) hwf.2 a b hmem)

theorem chainsSpec_list (l : FsList) (rdir : String) (hwf : wfList l = true) :
    ∀ q anc, (q, anc) ∈ fileChainsList l rdir → ChainSpec rdir q anc := by
  cases l with
  | nil =>
    intro q anc hq
    simp [fileChainsList] at hq
  | cons item rest =>
    intro q anc hq
    simp only [fileChainsList] at hq
    simp [wfList, Bool.and_eq_true] at hwf
    rcases List.mem_append.mp hq with hm | hm
    · exact chainsSpec_one item rdir hwf.1 q anc hm
    · exact chainsSpec_list rest rdir hwf.2 q anc hm
end

theorem pathHeadCancel {D A B : List Char} (h : D ++ '/' :: A = D ++ '/' :: B) :
    A = B := by
  have h1 := appCancelLeft D _ _ h
  simpa using h1

mutual
theorem exChain_one (w : World) (host : String) (t : FsTree) (rdir : String)
    (hwf : wfTree t = true) :
    ∀ p c, Ev.putFile host p c ∈ (putOne w host t rdir).2 →
      ∃ anc, ChainSpec rdir p anc := by
  cases t with
  | file n c' =>
    intro p c hp
    rw [putOne_file_eq] at hp
    simp at hp
    simp [wfTree] at hwf
    exact ⟨[], ChainSpec.base rdir n p hwf hp.1⟩
  | dir n cs =>
    intro p c hp
    rw [putOne_dir_eq] at hp
    simp at hp
    simp [wfTree, Bool.and_eq_true] at hwf
    obtain ⟨anc0, h0⟩ := exChain_list w host cs (joinPath rdir n) hwf.2 p c hp
    exact ⟨joinPath rdir n :: anc0, ChainSpec.step rdir n p anc0 hwf.1 h0⟩

theorem exChain_list (w : World) (host : String) (l : FsList) (rdir : String)
    (hwf : wfList l = true) :
    ∀ p c, Ev.putFile host p c ∈ (putItems w host l rdir).2 →
      ∃ anc, ChainSpec rdir p anc := by
  cases l with
  | nil =>
    intro p c hp
    simp [putItems_nil] at hp
  | cons item rest =>
    intro p c hp
    simp [wfList, Bool.and_eq_true] at hwf
    cases hr : (putOne w host item rdir).1 with
    | error er =>
      rw [putItems_cons_error w host item rest rdir er hr] at hp
      simp at hp
      exact exChain_one w host item rdir hwf.1 p c hp
    | ok u =>
      rw [putItems_cons_ok w host item rest rdir u hr] at hp
      simp at hp
      rcases hp with hp | hp
      · exact exChain_one w host item rdir hwf.1 p c hp
      · exact exChain_list w host rest rdir hwf.2 p c hp
end

mutual
theorem ancBefore_one (w : World) (host : String) (t : FsTree) (rdir : String)
    (hwf : wfTree t = true) (t1 t2 : List Ev) (p c : String)
    (hsplit : (putOne w host t rdir).2 = t1 ++ Ev.putFile host p c :: t2) :
    ∀ anc, ChainSpec rdir p anc → ∀ d ∈ anc, Ev.mkdir host d ∈ t1 := by
  cases t with
  | file n c' =>
    rw [putOne_file_eq] at hsplit
    simp [wfTree] at hwf
    cases t1 with
    | cons x t1' =>
      exfalso
      rw [List.cons_append] at hsplit
      injection hsplit with h1 h2
      have hlen := congrArg List.length h2
      simp at hlen
      omega
    | nil =>
      rw [List.nil_append] at hsplit
      injection hsplit with h1 h2
      injection h1 with hhost hpeq hceq
      subst hpeq
      intro anc hchain d hd
      cases hchain
      case base =>
        exact absurd hd (List.not_mem_nil d)
      case step =>
        rename_i m anc' hg hsub
        exfalso
        obtain ⟨tail1, ht1ne, hp1⟩ := chainShape hsub
        have hR : (joinPath rdir n).data =
            (rstripSlash rdir).data ++ '/' :: (m.data ++ '/' :: tail1) := by
          rw [hp1, rstrip_join rdir m hg, joinPath_data, List.append_assoc,
            List.cons_append]
        have hL : (joinPath rdir n).data =
            (rstripSlash rdir).data ++ '/' :: n.data := joinPath_data rdir n
        have hn2 : n.data = m.data ++ '/' :: tail1 := pathHeadCancel (hL.symm.trans hR)
        exact (goodName_props n hwf).2
          (by rw [hn2]; exact List.mem_append_right _ (List.mem_cons_self _ _))
  | dir n cs =>
    rw [putOne_dir_eq] at hsplit
    simp [wfTree, Bool.and_eq_true] at hwf
    cases t1 with
    | nil =>
      exfalso
      rw [List.nil_append] at hsplit
      injection hsplit with h1 h2
      exact Ev.noConfusion h1
    | cons x t1' =>
      rw [List.cons_append] at hsplit
      injection hsplit with hx hsplit
      cases t1' with
      | nil =>
        exfalso
        rw [List.nil_append] at hsplit
        injection hsplit with h1 h2
        exact Ev.noConfusion h1
      | cons y t1'' =>
        rw [List.cons_append] at hsplit
        injection hsplit with hy hsplit
        have hput : Ev.putFile host p c ∈ (putItems w host cs (joinPath rdir n)).2 := by
          rw [hsplit]
          exact List.mem_append_right _ (List.mem_cons_self _ _)
        obtain ⟨anc0, hanc0⟩ := exChain_list w host cs (joinPath rdir n) hwf.2 p c hput
        obtain ⟨tail0, ht0ne, hp0⟩ := chainShape hanc0
        have hP : p.data =
            (rstripSlash rdir).data ++ '/' :: (n.data ++ '/' :: tail0) := by
          rw [hp0, rstrip_join rdir n hwf.1, joinPath_data, List.append_assoc,
            List.cons_append]
        intro anc hchain d hd
        cases hchain
        case base =>
          rename_i m hg hq
          exfalso
          have hQ : p.data = (rstripSlash rdir).data ++ '/' :: m.data := by
            rw [hq, joinPath_data]
          have hm2 : m.data = n.data ++ '/' :: tail0 :=
            pathHeadCancel (hQ.symm.trans hP)
          exact (goodName_props m hg).2
            (by rw [hm2]; exact List.mem_append_right _ (List.mem_cons_self _ _))
        case step =>
          rename_i m anc' hg hsub
          obtain ⟨tail1, ht1ne, hp1⟩ := chainShape hsub
          have hR : p.data =
              (rstripSlash rdir).data ++ '/' :: (m.data ++ '/' :: tail1) := by
            rw [hp1, rstrip_join rdir m hg, joinPath_data, List.append_assoc,
              List.cons_append]
          have hcomp : n.data ++ '/' :: tail0 = m.data ++ '/' :: tail1 :=
            pathHeadCancel (hP.symm.trans hR)
          obtain ⟨hmn, hmt⟩ := slashSplit n.data m.data tail0 tail1
            (goodName_props n hwf.1).2 (goodName_props m hg).2 hcomp
          have hmn' : m = n := strData_inj hmn.symm
          subst hmn'
          rcases List.mem_cons.mp hd with rfl | hd'
          · rw [← hx]
            exact List.mem_cons_self _ _
          · have hin := ancBefore_list w host cs (joinPath rdir m) hwf.2 t1'' t2 p c
              hsplit anc' hsub d hd'
            exact List.mem_cons_of_mem _ (List.mem_cons_of_mem _ hin)

theorem ancBefore_list (w : World) (host : String) (l : FsList) (rdir : String)
    (hwf : wfList l = true) (t1 t2 : List Ev) (p c : String)
    (hsplit : (putItems w host l rdir).2 = t1 ++ Ev.putFile host p c :: t2) :
    ∀ anc, ChainSpec rdir p anc → ∀ d ∈ anc, Ev.mkdir host d ∈ t1 := by
  cases l with
  | nil =>
    exfalso
    rw [putItems_nil] at hsplit
    have hlen := congrArg List.length hsplit
    simp at hlen
    omega
  | cons item rest =>
    simp [wfList, Bool.and_eq_true] at hwf
    cases hr : (putOne w host item rdir).1 with
    | error er =>
      rw [putItems_cons_error w host item rest rdir er hr] at hsplit
      exact ancBefore_one w host item rdir hwf.1 t1 t2 p c hsplit
    | ok u =>
      rw [putItems_cons_ok w host item rest rdir u hr] at hsplit
      rcases splitMid _ _ t1 t2 _ hsplit with ⟨t2a, ha, hb⟩ | ⟨t1b, ha, hb⟩
      · exact ancBefore_one w host item rdir hwf.1 t1 t2a p c ha
      · intro anc hchain d hd
        have hin := ancBefore_list w host rest rdir hwf.2 t1b t2 p c hb anc hchain d hd
        rw [ha]
        exact List.mem_append_right _ hin
end

/-- C7: whenever the transfer issues a file upload, the directory
creation of the destination root and of every ancestor directory of
that file within the transferred tree was issued strictly earlier in
the trace (for any tree whose entry names are well-formed, as
`Path.iterdir` guarantees). -/
theorem sftp_put_dir_ancestor_dirs_before_file (w : World) (host : String)
    (items : FsList) (rdir : String) (hwf : wfList items = true)
    (t1 t2 : List Ev) (p c : String)
    (hsplit : (sftp_put_dir w host items rdir).2 =
      t1 ++ Ev.putFile host p c :: t2) :
    Ev.mkdir host rdir ∈ t1 ∧
    ∀ q anc, (q, anc) ∈ fileChainsList items rdir → q = p →
      ∀ d ∈ anc, Ev.mkdir host d ∈ t1 := by
  rw [sftp_put_dir_eq] at hsplit
  cases t1 with
  | nil =>
    exfalso
    rw [List.nil_append] at hsplit
    injection hsplit with h1 h2
    exact Ev.noConfusion h1
  | cons x t1' =>
    rw [List.cons_append] at hsplit
    injection hsplit with hx hsp
    constructor
    · rw [← hx]
      exact List.mem_cons_self _ _
    · intro q anc hq hqp d hd
      subst hqp
      have hchain := chainsSpec_list items rdir hwf q anc hq
      exact List.mem_cons_of_mem _
        (ancBefore_list w host items rdir hwf t1' t2 q c hsp anc hchain d hd)

/-- C7 (witness): in the demo transfer, the upload of
`style.css` is preceded by the creation of the destination root and of
`static`. -/
theorem sftp_ancestors_witness :
    Ev.mkdir "h" "/srv/dst" ∈ ([Ev.mkdir "h" "/srv/dst",
      Ev.putFile "h" "/srv/dst/requirements.txt" "flask",
      Ev.mkdir "h" "/srv/dst/static", Ev.mkdir "h" "/srv/dst/static"] : List Ev) ∧
    ∀ q anc, (q, anc) ∈ fileChainsList demoTree "/srv/dst" →
      q = "/srv/dst/static/style.css" →
      ∀ d ∈ anc, Ev.mkdir "h" d ∈ ([Ev.mkdir "h" "/srv/dst",
        Ev.putFile "h" "/srv/dst/requirements.txt" "flask",
        Ev.mkdir "h" "/srv/dst/static", Ev.mkdir "h" "/srv/dst/static"] : List Ev) :=
  sftp_put_dir_ancestor_dirs_before_file w0 "h" demoTree "/srv/dst" (by decide)
    [Ev.mkdir "h" "/srv/dst",
      Ev.putFile "h" "/srv/dst/requirements.txt" "flask",
      Ev.mkdir "h" "/srv/dst/static", Ev.mkdir "h" "/srv/dst/static"] []
    "/srv/dst/static/style.css" "body" (by decide)

end AutoCloud
